import Mathlib

/-!
Shallow embedding of `custom_components/my_stock_portfolio/sensor.py`.

The file models the three sensor classes of the source:
`StockSensor` (one holding), `AggregateStockSensor` (all holdings of one
ticker) and `TotalPortfolioSensor` (all holdings).  Python numbers are
modelled by `ℚ`; Python `round(x, 2)` by `pyRound2` (round half to even,
as Python does); Python dicts by insertion-ordered association lists
(`dget`/`dset`); the quote fetch `yf.Ticker(t).info.get("regularMarketPrice")`
by a `FetchResult` value, where a transport exception and an absent price
are the two non-success outcomes.  Sensor state (`self._state`,
`self._attrs`) is passed explicitly; `none` for an attrs field models the
initial empty dict `{}`.
-/

/-- One configured holding: one entry of `config["stocks"]`
(`account`, `symbol`, `shares`, `purchase_price`). -/
structure StockConfig where
  account : String
  symbol : String
  shares : ℚ
  purchase_price : ℚ
deriving DecidableEq

/-- Outcome of one quote fetch: `err` models a raised transport exception,
`price none` models `info.get("regularMarketPrice")` returning `None`,
`price (some p)` a fetched price `p`. -/
inductive FetchResult where
  | err : FetchResult
  | price : Option ℚ → FetchResult
deriving DecidableEq

/-- Round a rational to the nearest integer, ties to even: the rounding of
Python `round` applied to the exact value. -/
def roundHalfEven (x : ℚ) : ℤ :=
  if x - ⌊x⌋ < 1 / 2 then ⌊x⌋
  else if 1 / 2 < x - ⌊x⌋ then ⌊x⌋ + 1
  else if ⌊x⌋ % 2 = 0 then ⌊x⌋ else ⌊x⌋ + 1

/-- Python `round(x, 2)`. -/
def pyRound2 (x : ℚ) : ℚ := (roundHalfEven (x * 100) : ℚ) / 100

/-- `d.get(k)` on an insertion-ordered association list (Python dict lookup). -/
def dget {α : Type} : List (String × α) → String → Option α
  | [], _ => none
  | (k, v) :: d, k0 => if k = k0 then some v else dget d k0

/-- `d[k] = v` on an insertion-ordered association list: updates the value in
place if the key exists, otherwise appends the new key at the end, as a
Python dict assignment does. -/
def dset {α : Type} : List (String × α) → String → α → List (String × α)
  | [], k0, v0 => [(k0, v0)]
  | (k, v) :: d, k0, v0 => if k = k0 then (k, v0) :: d else (k, v) :: dset d k0 v0

/-- The attribute dict written by `StockSensor.update` on success
(source lines 66 to 74). -/
structure StockAttrs where
  account : String
  ticker : String
  shares : ℚ
  purchase_price : ℚ
  current_price : ℚ
  gain_loss : ℚ
  gain_percent : ℚ
deriving DecidableEq

/-- `self._state` and `self._attrs` of a `StockSensor`; `attrs = none`
models the initial empty dict. -/
structure StockState where
  state : Option ℚ
  attrs : Option StockAttrs
deriving DecidableEq

/-- The constructor state: `self._state = None`, `self._attrs = \x7b\x7d`. -/
def StockState.initial : StockState := ⟨none, none⟩

/-- `StockSensor.update` (source lines 52 to 78): on a transport exception or
an absent price the state becomes `None` and the attrs are left untouched;
on a price the derived values are computed and both fields are overwritten. -/
def StockSensor.update (cfg : StockConfig) (q : FetchResult) (s : StockState) : StockState :=
  match q with
  | .err => { s with state := none }
  | .price none => { s with state := none }
  | .price (some p) =>
    let current_value := p * cfg.shares
    let purchase_value := cfg.purchase_price * cfg.shares
    let gain_loss := current_value - purchase_value
    let gain_percent := if purchase_value ≠ 0 then gain_loss / purchase_value * 100 else 0
    { state := some (pyRound2 current_value)
      attrs := some ⟨cfg.account, cfg.symbol, cfg.shares, cfg.purchase_price, p,
        pyRound2 gain_loss, pyRound2 gain_percent⟩ }

/-- The tickers passed to `yf.Ticker` by one `StockSensor.update` call, in
order: exactly one fetch, of the holding ticker (source line 54). -/
def StockSensor.fetchCalls (cfg : StockConfig) : List String := [cfg.symbol]

/-- The attribute dict written by `AggregateStockSensor.update` on success
(source lines 121 to 129). -/
structure AggAttrs where
  ticker : String
  total_shares : ℚ
  current_price : ℚ
  total_purchase_value : ℚ
  gain_loss : ℚ
  gain_percent : ℚ
  account_breakdown : List (String × ℚ)
deriving DecidableEq

/-- `self._state` and `self._attrs` of an `AggregateStockSensor`. -/
structure AggState where
  state : Option ℚ
  attrs : Option AggAttrs
deriving DecidableEq

/-- The constructor state of an `AggregateStockSensor`. -/
def AggState.initial : AggState := ⟨none, none⟩

/-- The for-loop of `AggregateStockSensor.update` (source lines 108 to 114):
accumulates `(total_shares, total_purchase_value, account_breakdown)`. -/
def aggLoop : List StockConfig → ℚ × ℚ × List (String × ℚ) → ℚ × ℚ × List (String × ℚ)
  | [], acc => acc
  | cfg :: rest, (ts, tpv, bd) =>
    aggLoop rest (ts + cfg.shares, tpv + cfg.shares * cfg.purchase_price,
      dset bd cfg.account ((dget bd cfg.account).getD 0 + cfg.shares))

/-- `AggregateStockSensor.update` (source lines 96 to 133): one fetch for the
ticker; on failure the state becomes `None` and the attrs are left untouched;
on success the sums over `configs` and the derived values are computed. -/
def AggregateStockSensor.update (ticker : String) (configs : List StockConfig)
    (q : FetchResult) (s : AggState) : AggState :=
  match q with
  | .err => { s with state := none }
  | .price none => { s with state := none }
  | .price (some p) =>
    let acc := aggLoop configs (0, 0, [])
    let total_shares := acc.1
    let total_purchase_value := acc.2.1
    let account_breakdown := acc.2.2
    let current_value := p * total_shares
    let gain_loss := current_value - total_purchase_value
    let gain_percent :=
      if total_purchase_value ≠ 0 then gain_loss / total_purchase_value * 100 else 0
    { state := some (pyRound2 current_value)
      attrs := some ⟨ticker, total_shares, p, pyRound2 total_purchase_value,
        pyRound2 gain_loss, pyRound2 gain_percent, account_breakdown⟩ }

/-- The tickers passed to `yf.Ticker` by one `AggregateStockSensor.update`
call: exactly one fetch for the whole ticker (source line 98), shared by all
holdings of that ticker. -/
def AggregateStockSensor.fetchCalls (ticker : String) (_configs : List StockConfig) :
    List String := [ticker]

/-- The loop accumulator of `TotalPortfolioSensor.update`:
`total_value`, `total_purchase_value` and the dict `per_stock` mapping a
ticker to its summed `(shares, current_value)` (source lines 151 to 153). -/
structure PortfolioAcc where
  total_value : ℚ
  total_purchase_value : ℚ
  per_stock : List (String × (ℚ × ℚ))
deriving DecidableEq

/-- The accumulator at loop entry. -/
def PortfolioAcc.initial : PortfolioAcc := ⟨0, 0, []⟩

/-- One successful iteration of the `TotalPortfolioSensor.update` loop body
(source lines 169 to 179; the `gain_loss` computed at line 171 is unused by
the source and therefore not modelled). -/
def portfolioStep (acc : PortfolioAcc) (p : ℚ) (cfg : StockConfig) : PortfolioAcc :=
  let current_value := p * cfg.shares
  let purchase_value := cfg.purchase_price * cfg.shares
  let entry := (dget acc.per_stock cfg.symbol).getD (0, 0)
  { total_value := acc.total_value + current_value
    total_purchase_value := acc.total_purchase_value + purchase_value
    per_stock := dset acc.per_stock cfg.symbol (entry.1 + cfg.shares, entry.2 + current_value) }

/-- The for-loop of `TotalPortfolioSensor.update` (source lines 155 to 179):
the fetch for the i-th holding returns `fetch i`; a holding whose fetch
raises or returns no price is skipped by `continue`. -/
def portfolioLoop (fetch : ℕ → FetchResult) :
    List StockConfig → ℕ → PortfolioAcc → PortfolioAcc
  | [], _, acc => acc
  | cfg :: rest, i, acc =>
    match fetch i with
    | .err => portfolioLoop fetch rest (i + 1) acc
    | .price none => portfolioLoop fetch rest (i + 1) acc
    | .price (some p) => portfolioLoop fetch rest (i + 1) (portfolioStep acc p cfg)

/-- The attribute dict written by `TotalPortfolioSensor.update`
(source lines 185 to 190). -/
structure PortfolioAttrs where
  total_purchase_value : ℚ
  total_gain_loss : ℚ
  total_gain_percent : ℚ
  by_stock : List (String × ℚ)
deriving DecidableEq

/-- `TotalPortfolioSensor.update` (source lines 150 to 190): runs the loop
over all holdings, then unconditionally writes a numeric state and the
attrs; there is no unavailable branch at this level. -/
def TotalPortfolioSensor.update (configs : List StockConfig) (fetch : ℕ → FetchResult) :
    Option ℚ × PortfolioAttrs :=
  let acc := portfolioLoop fetch configs 0 PortfolioAcc.initial
  let gain := acc.total_value - acc.total_purchase_value
  let gain_percent :=
    if acc.total_purchase_value ≠ 0 then gain / acc.total_purchase_value * 100 else 0
  (some (pyRound2 acc.total_value),
    ⟨pyRound2 acc.total_purchase_value, pyRound2 gain, pyRound2 gain_percent,
      acc.per_stock.map fun kv => (kv.1, pyRound2 kv.2.2)⟩)

/-- The tickers passed to `yf.Ticker` by one `TotalPortfolioSensor.update`
call, in order: one fetch per holding (source line 161), executed before the
skip tests, with no deduplication by ticker. -/
def TotalPortfolioSensor.fetchCalls (configs : List StockConfig) : List String :=
  configs.map fun c => c.symbol

/-- The `(price, holding)` pairs of exactly those holdings whose fetch in the
portfolio loop succeeded, in loop order. -/
def successes (fetch : ℕ → FetchResult) : List StockConfig → ℕ → List (ℚ × StockConfig)
  | [], _ => []
  | cfg :: rest, i =>
    match fetch i with
    | .price (some p) => (p, cfg) :: successes fetch rest (i + 1)
    | _ => successes fetch rest (i + 1)

/-- Spec-side reading of the portfolio loop: accumulate over only the
succeeded holdings, each with its fetched price. -/
def successLoop : List (ℚ × StockConfig) → PortfolioAcc → PortfolioAcc
  | [], acc => acc
  | (p, cfg) :: rest, acc => successLoop rest (portfolioStep acc p cfg)

/-- A rational has at most two decimal digits: one hundred times it is an
integer. -/
def twoDecimals (q : ℚ) : Prop := ∃ z : ℤ, q * 100 = (z : ℚ)

/-! ### Evaluation lemmas for the rounding function -/

lemma roundHalfEven_low (x : ℚ) (z : ℤ) (h1 : (z : ℚ) ≤ x) (h2 : x - z < 1 / 2) :
    roundHalfEven x = z := by
  have hf : ⌊x⌋ = z := by
    rw [Int.floor_eq_iff]
    constructor
    · exact h1
    · linarith
  unfold roundHalfEven
  rw [hf, if_pos h2]

lemma roundHalfEven_high (x : ℚ) (z : ℤ) (h1 : (z : ℚ) + 1 / 2 < x) (h2 : x < z + 1) :
    roundHalfEven x = z + 1 := by
  have hf : ⌊x⌋ = z := by
    rw [Int.floor_eq_iff]
    constructor
    · linarith
    · linarith
  unfold roundHalfEven
  rw [hf, if_neg (by linarith), if_pos (by linarith)]

lemma roundHalfEven_tie_even (x : ℚ) (z : ℤ) (h1 : x - z = 1 / 2) (h2 : z % 2 = 0) :
    roundHalfEven x = z := by
  have hf : ⌊x⌋ = z := by
    rw [Int.floor_eq_iff]
    constructor
    · linarith
    · linarith
  unfold roundHalfEven
  rw [hf, if_neg (by linarith), if_neg (by linarith), if_pos h2]

lemma roundHalfEven_tie_odd (x : ℚ) (z : ℤ) (h1 : x - z = 1 / 2) (h2 : z % 2 ≠ 0) :
    roundHalfEven x = z + 1 := by
  have hf : ⌊x⌋ = z := by
    rw [Int.floor_eq_iff]
    constructor
    · linarith
    · linarith
  unfold roundHalfEven
  rw [hf, if_neg (by linarith), if_neg (by linarith), if_neg h2]

lemma pyRound2_low (x : ℚ) (z : ℤ) (h1 : (z : ℚ) ≤ x * 100) (h2 : x * 100 - z < 1 / 2) :
    pyRound2 x = (z : ℚ) / 100 := by
  unfold pyRound2
  rw [roundHalfEven_low (x * 100) z h1 h2]

lemma pyRound2_high (x : ℚ) (z : ℤ) (h1 : (z : ℚ) + 1 / 2 < x * 100) (h2 : x * 100 < z + 1) :
    pyRound2 x = ((z : ℚ) + 1) / 100 := by
  unfold pyRound2
  rw [roundHalfEven_high (x * 100) z h1 h2]
  push_cast
  ring

lemma pyRound2_eq_self (x : ℚ) (z : ℤ) (h : x * 100 = (z : ℚ)) : pyRound2 x = x := by
  rw [pyRound2_low x z h.ge (by rw [h]; norm_num), ← h]
  field_simp

lemma pyRound2_zero : pyRound2 0 = 0 := pyRound2_eq_self 0 0 (by norm_num)

lemma twoDecimals_pyRound2 (x : ℚ) : twoDecimals (pyRound2 x) := by
  refine ⟨roundHalfEven (x * 100), ?_⟩
  unfold pyRound2
  field_simp

/-! ### Dictionary lemmas -/

lemma dget_dset_self {α : Type} (d : List (String × α)) (k : String) (v : α) :
    dget (dset d k v) k = some v := by
  induction d with
  | nil => simp [dget, dset]
  | cons kv d ih =>
    obtain ⟨k1, v1⟩ := kv
    by_cases h : k1 = k
    · simp [dset, dget, h]
    · simp [dset, dget, h, ih]

lemma dget_dset_ne {α : Type} (d : List (String × α)) (k t : String) (v : α) (h : k ≠ t) :
    dget (dset d k v) t = dget d t := by
  induction d with
  | nil => simp [dget, dset, h]
  | cons kv d ih =>
    obtain ⟨k1, v1⟩ := kv
    by_cases h1 : k1 = k
    · subst h1
      simp [dset, dget, h]
    · simp [dset, dget, h1, ih]

lemma dget_map {α β : Type} (g : α → β) (d : List (String × α)) (k : String) :
    dget (d.map fun kv => (kv.1, g kv.2)) k = (dget d k).map g := by
  induction d with
  | nil => rfl
  | cons kv d ih =>
    by_cases h : kv.1 = k <;> simp [dget, h, ih]

/-! ### Lemmas about the aggregate-sensor loop -/

lemma aggLoop_fst (configs : List StockConfig) :
    ∀ ts tpv bd, (aggLoop configs (ts, tpv, bd)).1 = ts + (configs.map (·.shares)).sum := by
  induction configs with
  | nil => intro ts tpv bd; simp [aggLoop]
  | cons c cs ih =>
    intro ts tpv bd
    simp only [aggLoop, ih, List.map_cons, List.sum_cons]
    ring

lemma aggLoop_tpv (configs : List StockConfig) :
    ∀ ts tpv bd, (aggLoop configs (ts, tpv, bd)).2.1
      = tpv + (configs.map fun c => c.shares * c.purchase_price).sum := by
  induction configs with
  | nil => intro ts tpv bd; simp [aggLoop]
  | cons c cs ih =>
    intro ts tpv bd
    simp only [aggLoop, ih, List.map_cons, List.sum_cons]
    ring

lemma aggLoop_breakdown_getD (configs : List StockConfig) :
    ∀ ts tpv bd a, (dget (aggLoop configs (ts, tpv, bd)).2.2 a).getD 0
      = (dget bd a).getD 0 + ((configs.filter fun c => c.account = a).map (·.shares)).sum := by
  induction configs with
  | nil => intro ts tpv bd a; simp [aggLoop]
  | cons c cs ih =>
    intro ts tpv bd a
    simp only [aggLoop, ih, List.filter_cons]
    by_cases h : c.account = a
    · subst h
      rw [dget_dset_self]
      simp [List.sum_cons]
      ring
    · rw [dget_dset_ne _ _ _ _ h]
      simp [h]

lemma aggLoop_breakdown_none (configs : List StockConfig) :
    ∀ ts tpv bd a, dget (aggLoop configs (ts, tpv, bd)).2.2 a = none
      ↔ (dget bd a = none ∧ a ∉ configs.map (·.account)) := by
  induction configs with
  | nil => intro ts tpv bd a; simp [aggLoop]
  | cons c cs ih =>
    intro ts tpv bd a
    simp only [aggLoop, ih, List.map_cons, List.mem_cons]
    by_cases h : c.account = a
    · subst h
      rw [dget_dset_self]
      simp
    · rw [dget_dset_ne _ _ _ _ h]
      have : ¬ a = c.account := fun hh => h hh.symm
      tauto

/-! ### Lemmas about the portfolio loop -/

lemma portfolioLoop_eq_successLoop (fetch : ℕ → FetchResult) (configs : List StockConfig) :
    ∀ i acc, portfolioLoop fetch configs i acc = successLoop (successes fetch configs i) acc := by
  induction configs with
  | nil => intro i acc; rfl
  | cons c cs ih =>
    intro i acc
    simp only [portfolioLoop, successes]
    cases h : fetch i with
    | err => exact ih (i + 1) acc
    | price o =>
      cases o with
      | none => exact ih (i + 1) acc
      | some p =>
        simp only [successLoop]
        exact ih (i + 1) (portfolioStep acc p c)

lemma successLoop_total_value (l : List (ℚ × StockConfig)) :
    ∀ acc, (successLoop l acc).total_value
      = acc.total_value + (l.map fun pc => pc.1 * pc.2.shares).sum := by
  induction l with
  | nil => intro acc; simp [successLoop]
  | cons pc l ih =>
    obtain ⟨p, cfg⟩ := pc
    intro acc
    simp only [successLoop, ih, portfolioStep, List.map_cons, List.sum_cons]
    ring

lemma successLoop_tpv (l : List (ℚ × StockConfig)) :
    ∀ acc, (successLoop l acc).total_purchase_value
      = acc.total_purchase_value + (l.map fun pc => pc.2.purchase_price * pc.2.shares).sum := by
  induction l with
  | nil => intro acc; simp [successLoop]
  | cons pc l ih =>
    obtain ⟨p, cfg⟩ := pc
    intro acc
    simp only [successLoop, ih, portfolioStep, List.map_cons, List.sum_cons]
    ring

lemma successLoop_per_stock_absent (l : List (ℚ × StockConfig)) :
    ∀ acc t, t ∉ l.map (fun pc => pc.2.symbol) →
      dget (successLoop l acc).per_stock t = dget acc.per_stock t := by
  induction l with
  | nil => intro acc t _; rfl
  | cons pc l ih =>
    obtain ⟨p, cfg⟩ := pc
    intro acc t ht
    simp only [List.map_cons, List.mem_cons] at ht
    push_neg at ht
    simp only [successLoop]
    rw [ih _ _ ht.2]
    exact dget_dset_ne _ _ _ _ (Ne.symm ht.1)

lemma successes_eq_nil (fetch : ℕ → FetchResult) (configs : List StockConfig) :
    ∀ i, (∀ k, k < configs.length → fetch (i + k) = .err ∨ fetch (i + k) = .price none) →
      successes fetch configs i = [] := by
  induction configs with
  | nil => intro i _; rfl
  | cons c cs ih =>
    intro i h
    have h0 := h 0 (by simp)
    rw [Nat.add_zero] at h0
    have hrest : ∀ k, k < cs.length →
        fetch (i + 1 + k) = .err ∨ fetch (i + 1 + k) = .price none := by
      intro k hk
      have := h (k + 1) (by simpa using Nat.succ_lt_succ hk)
      rwa [show i + (k + 1) = i + 1 + k by ring] at this
    simp only [successes]
    rcases h0 with h0 | h0 <;> rw [h0] <;> exact ih (i + 1) hrest

/-! ### Claims -/

/-- Claim C1: for every holding, symbol aggregate and portfolio aggregate
whose purchase value (resp. total purchase value) is zero, the computed
gain percent is zero: the guard on the purchase value keeps the division
branch unreachable, so there is no division fault. -/
theorem zero_cost_basis_gain_percent_zero :
    (∀ (cfg : StockConfig) (p : ℚ) (s : StockState),
      cfg.purchase_price * cfg.shares = 0 →
        (StockSensor.update cfg (.price (some p)) s).attrs.map (·.gain_percent) = some 0)
    ∧ (∀ (t : String) (configs : List StockConfig) (p : ℚ) (s : AggState),
      (configs.map fun c => c.shares * c.purchase_price).sum = 0 →
        (AggregateStockSensor.update t configs (.price (some p)) s).attrs.map (·.gain_percent)
          = some 0)
    ∧ (∀ (configs : List StockConfig) (fetch : ℕ → FetchResult),
      (portfolioLoop fetch configs 0 PortfolioAcc.initial).total_purchase_value = 0 →
        (TotalPortfolioSensor.update configs fetch).2.total_gain_percent = 0) := by
  refine ⟨?_, ?_, ?_⟩
  · intro cfg p s h
    simp only [StockSensor.update, Option.map_some]
    rw [if_neg (fun hh => hh h), pyRound2_zero]
    rfl
  · intro t configs p s h
    have htpv : (aggLoop configs (0, 0, [])).2.1 = 0 := by
      rw [aggLoop_tpv]
      simpa using h
    simp only [AggregateStockSensor.update, Option.map_some]
    rw [htpv, if_neg (fun hh => hh rfl), pyRound2_zero]
    rfl
  · intro configs fetch h
    simp only [TotalPortfolioSensor.update]
    rw [h, if_neg (fun hh => hh rfl), pyRound2_zero]

theorem zero_cost_basis_gain_percent_zero_witness :
    (StockSensor.update ⟨"A", "T", 0, 5⟩ (.price (some 3)) StockState.initial).attrs.map
        (·.gain_percent) = some 0
    ∧ (AggregateStockSensor.update "T" [] (.price (some 3)) AggState.initial).attrs.map
        (·.gain_percent) = some 0
    ∧ (TotalPortfolioSensor.update [] (fun _ => .err)).2.total_gain_percent = 0 :=
  ⟨zero_cost_basis_gain_percent_zero.1 ⟨"A", "T", 0, 5⟩ 3 StockState.initial (by norm_num),
   zero_cost_basis_gain_percent_zero.2.1 "T" [] 3 AggState.initial (by simp),
   zero_cost_basis_gain_percent_zero.2.2 [] (fun _ => .err) rfl⟩

/-- Claim C3: for a holding with a fetched price, the result carries
current value equal to price times shares (as the rounded state), gain
loss equal to current value minus purchase value, and gain percent equal
to gain loss over purchase value times one hundred when the purchase
value is positive; at the holding (AccountA, AAPL, 10 shares, 100
purchase) with quote 150 the result is 1500.00, 500.00 and 50.00. -/
theorem holding_result_formulas :
    (∀ (cfg : StockConfig) (p : ℚ) (s : StockState),
      (StockSensor.update cfg (.price (some p)) s).state
          = some (pyRound2 (p * cfg.shares))
        ∧ (StockSensor.update cfg (.price (some p)) s).attrs.map (·.gain_loss)
          = some (pyRound2 (p * cfg.shares - cfg.purchase_price * cfg.shares))
        ∧ (0 < cfg.purchase_price * cfg.shares →
          (StockSensor.update cfg (.price (some p)) s).attrs.map (·.gain_percent)
            = some (pyRound2 ((p * cfg.shares - cfg.purchase_price * cfg.shares)
                / (cfg.purchase_price * cfg.shares) * 100))))
    ∧ ((StockSensor.update ⟨"AccountA", "AAPL", 10, 100⟩ (.price (some 150))
          StockState.initial).state = some 1500
        ∧ (StockSensor.update ⟨"AccountA", "AAPL", 10, 100⟩ (.price (some 150))
            StockState.initial).attrs.map (·.gain_loss) = some 500
        ∧ (StockSensor.update ⟨"AccountA", "AAPL", 10, 100⟩ (.price (some 150))
            StockState.initial).attrs.map (·.gain_percent) = some 50) := by
  constructor
  · intro cfg p s
    refine ⟨rfl, rfl, ?_⟩
    intro hpos
    simp only [StockSensor.update, Option.map_some]
    rw [if_pos (ne_of_gt hpos)]
    rfl
  · refine ⟨?_, ?_, ?_⟩
    · simp only [StockSensor.update, Option.map_some]
      norm_num
      rw [pyRound2_eq_self _ 150000 (by norm_num)]
    · simp only [StockSensor.update, Option.map_some]
      norm_num
      rw [pyRound2_eq_self _ 50000 (by norm_num)]
    · simp only [StockSensor.update, Option.map_some]
      norm_num
      rw [pyRound2_eq_self _ 5000 (by norm_num)]

theorem holding_result_formulas_witness :
    0 < (100 : ℚ) * 10
    ∧ (StockSensor.update ⟨"AccountA", "AAPL", 10, 100⟩ (.price (some 150))
        StockState.initial).attrs.map (·.gain_percent)
      = some (pyRound2 ((150 * 10 - 100 * 10) / (100 * 10) * 100)) :=
  ⟨by norm_num,
   (holding_result_formulas.1 ⟨"AccountA", "AAPL", 10, 100⟩ 150 StockState.initial).2.2
     (by norm_num)⟩

/-- Claim C4: for every ticker and list of holdings for it, the symbol
aggregate reports total shares equal to the sum of the shares of those
holdings, total purchase value equal to (the rounding of) the sum of
shares times purchase price over them, and an account breakdown mapping
exactly each account encountered to the summed shares of that account. -/
theorem symbol_aggregate_sums :
    ∀ (t : String) (configs : List StockConfig) (p : ℚ) (s : AggState),
      ∃ a, (AggregateStockSensor.update t configs (.price (some p)) s).attrs = some a
        ∧ a.total_shares = (configs.map (·.shares)).sum
        ∧ a.total_purchase_value
          = pyRound2 ((configs.map fun c => c.shares * c.purchase_price).sum)
        ∧ (∀ acct, acct ∈ configs.map (·.account) →
            dget a.account_breakdown acct
              = some (((configs.filter fun c => c.account = acct).map (·.shares)).sum))
        ∧ (∀ acct, acct ∉ configs.map (·.account) →
            dget a.account_breakdown acct = none) := by
  intro t configs p s
  refine ⟨_, rfl, ?_, ?_, ?_, ?_⟩
  · rw [aggLoop_fst, zero_add]
  · rw [aggLoop_tpv, zero_add]
  · intro acct hmem
    have hne : dget (aggLoop configs (0, 0, [])).2.2 acct ≠ none := fun hnone =>
      ((aggLoop_breakdown_none configs 0 0 [] acct).mp hnone).2 hmem
    have hgd := aggLoop_breakdown_getD configs 0 0 [] acct
    cases hdg : dget (aggLoop configs (0, 0, [])).2.2 acct with
    | none => exact absurd hdg hne
    | some v =>
      rw [hdg] at hgd
      simp only [Option.getD_some, dget, Option.getD_none, zero_add] at hgd
      rw [hgd]
  · intro acct hmem
    rw [aggLoop_breakdown_none]
    exact ⟨rfl, hmem⟩

theorem symbol_aggregate_sums_witness :
    ∃ a, (AggregateStockSensor.update "T" [⟨"A", "T", 2, 3⟩] (.price (some 5))
        AggState.initial).attrs = some a
      ∧ dget a.account_breakdown "A" = some 2
      ∧ dget a.account_breakdown "B" = none := by
  obtain ⟨a, ha, _, _, hmem, hnone⟩ :=
    symbol_aggregate_sums "T" [⟨"A", "T", 2, 3⟩] 5 AggState.initial
  refine ⟨a, ha, ?_, ?_⟩
  · have h := hmem "A" (by simp)
    simpa using h
  · exact hnone "B" (by simp)

lemma agg_scenario_eval :
    AggregateStockSensor.update "AAPL"
        [⟨"AccountA", "AAPL", 10, 100⟩, ⟨"AccountB", "AAPL", 5, 120⟩]
        (.price (some 150)) AggState.initial
      = ⟨some 2250,
         some ⟨"AAPL", 15, 150, 1600, 650, 4062 / 100, [("AccountA", 10), ("AccountB", 5)]⟩⟩ := by
  simp only [AggregateStockSensor.update, aggLoop, dget, dset, Option.getD_none, Option.getD_some]
  norm_num
  refine ⟨pyRound2_eq_self _ 225000 (by norm_num), pyRound2_eq_self _ 160000 (by norm_num),
    pyRound2_eq_self _ 65000 (by norm_num), ?_, by simp⟩
  have h : pyRound2 (325 / 8) = ((4062 : ℤ) : ℚ) / 100 := by
    unfold pyRound2
    rw [roundHalfEven_tie_even _ 4062 (by norm_num) (by norm_num)]
  rw [h]
  norm_num

/-- Claim C5 (amended): for the two holdings (AccountA, AAPL, 10 shares,
100 purchase) and (AccountB, AAPL, 5 shares, 120 purchase) with quote 150,
the symbol aggregate has total shares 15, total purchase value 1600.00
(not 1700.00), current value 2250.00, gain percent 40.62 (not 32.35), and
account breakdown (AccountA to 10, AccountB to 5). -/
theorem symbol_aggregate_scenario :
    AggregateStockSensor.update "AAPL"
        [⟨"AccountA", "AAPL", 10, 100⟩, ⟨"AccountB", "AAPL", 5, 120⟩]
        (.price (some 150)) AggState.initial
      = ⟨some 2250,
         some ⟨"AAPL", 15, 150, 1600, 650, 4062 / 100, [("AccountA", 10), ("AccountB", 5)]⟩⟩ :=
  agg_scenario_eval

/-- Claim C5, counterexample to the stated figures: at the stated input the
code computes total purchase value 1600.00 and gain percent 40.62, not the
claimed 1700.00 and 32.35. -/
theorem symbol_aggregate_scenario_counterexample :
    (AggregateStockSensor.update "AAPL"
        [⟨"AccountA", "AAPL", 10, 100⟩, ⟨"AccountB", "AAPL", 5, 120⟩]
        (.price (some 150)) AggState.initial).attrs.map
          (fun a => (a.total_purchase_value, a.gain_percent)) = some (1600, 4062 / 100)
      ∧ ((1600 : ℚ), (4062 : ℚ) / 100) ≠ ((1700 : ℚ), (3235 : ℚ) / 100) := by
  constructor
  · rw [agg_scenario_eval]
    rfl
  · intro h
    rw [Prod.mk.injEq] at h
    exact absurd h.1 (by norm_num)

/-- Claim C6, counterexample: after a successful cycle, a cycle whose quote
is absent leaves the sensor with state unavailable but with the attribute
mapping still holding the computed values of the earlier cycle, so the
mapping is not free of computed values from every cycle. -/
theorem unavailable_keeps_attrs_counterexample :
    (StockSensor.update ⟨"AccountA", "AAPL", 10, 100⟩ (.price none)
        (StockSensor.update ⟨"AccountA", "AAPL", 10, 100⟩ (.price (some 150))
          StockState.initial)).state = none
      ∧ (StockSensor.update ⟨"AccountA", "AAPL", 10, 100⟩ (.price none)
          (StockSensor.update ⟨"AccountA", "AAPL", 10, 100⟩ (.price (some 150))
            StockState.initial)).attrs.map (·.gain_loss) = some 500 := by
  constructor
  · rfl
  · simp only [StockSensor.update, Option.map_some]
    norm_num
    rw [pyRound2_eq_self _ 50000 (by norm_num)]

/-- Claim C6 (amended): for every holding whose quote is absent or whose
fetch fails, the update sets the state to the unavailable marker and
computes no derived fields in that cycle; the attribute mapping is left
exactly as it was, so it is empty only when no earlier cycle succeeded and
otherwise still carries the values of the last successful cycle. -/
theorem unavailable_keeps_attrs :
    ∀ (cfg : StockConfig) (q : FetchResult) (s : StockState),
      (q = .err ∨ q = .price none) →
        (StockSensor.update cfg q s).state = none
          ∧ (StockSensor.update cfg q s).attrs = s.attrs := by
  intro cfg q s h
  rcases h with h | h <;> subst h <;> exact ⟨rfl, rfl⟩

theorem unavailable_keeps_attrs_witness :
    (StockSensor.update ⟨"A", "T", 1, 1⟩ (.price none) StockState.initial).state = none
      ∧ (StockSensor.update ⟨"A", "T", 1, 1⟩ (.price none) StockState.initial).attrs
        = StockState.initial.attrs :=
  unavailable_keeps_attrs ⟨"A", "T", 1, 1⟩ (.price none) StockState.initial (Or.inr rfl)

lemma portfolioLoop_congr (f g : ℕ → FetchResult) (j : ℕ)
    (hf : f j = .err) (hg : g j = .price none) (hfg : ∀ i, i ≠ j → f i = g i) :
    ∀ (configs : List StockConfig) (i : ℕ) (acc : PortfolioAcc),
      portfolioLoop f configs i acc = portfolioLoop g configs i acc := by
  intro configs
  induction configs with
  | nil => intro i acc; rfl
  | cons c cs ih =>
    intro i acc
    by_cases hij : i = j
    · subst hij
      simp only [portfolioLoop, hf, hg]
      exact ih (i + 1) acc
    · have hi := hfg i hij
      simp only [portfolioLoop, hi]
      cases g i with
      | err => exact ih (i + 1) acc
      | price o =>
        cases o with
        | none => exact ih (i + 1) acc
        | some p => exact ih (i + 1) (portfolioStep acc p c)

/-- Claim C7: a transport error is caught and treated exactly like an
absent price: the per-holding and per-symbol updates produce identical
results in the two cases, and at the portfolio level changing the fetch
outcome of one holding from a transport error to an absent price, with
every other fetch outcome unchanged, leaves the whole portfolio result
identical, so the failure affects no other holding and not the total. -/
theorem transport_error_as_absent :
    (∀ (cfg : StockConfig) (s : StockState),
      StockSensor.update cfg .err s = StockSensor.update cfg (.price none) s)
    ∧ (∀ (t : String) (configs : List StockConfig) (s : AggState),
      AggregateStockSensor.update t configs .err s
        = AggregateStockSensor.update t configs (.price none) s)
    ∧ (∀ (configs : List StockConfig) (f g : ℕ → FetchResult) (j : ℕ),
      f j = .err → g j = .price none → (∀ i, i ≠ j → f i = g i) →
        TotalPortfolioSensor.update configs f = TotalPortfolioSensor.update configs g) := by
  refine ⟨fun cfg s => rfl, fun t configs s => rfl, ?_⟩
  intro configs f g j hf hg hfg
  unfold TotalPortfolioSensor.update
  rw [portfolioLoop_congr f g j hf hg hfg configs 0 PortfolioAcc.initial]

theorem transport_error_as_absent_witness :
    TotalPortfolioSensor.update [⟨"A", "T", 1, 1⟩]
        (fun i => if i = 0 then FetchResult.err else .price none)
      = TotalPortfolioSensor.update [⟨"A", "T", 1, 1⟩] (fun _ => .price none) :=
  transport_error_as_absent.2.2 [⟨"A", "T", 1, 1⟩]
    (fun i => if i = 0 then FetchResult.err else .price none)
    (fun _ => .price none) 0 rfl rfl (fun i hi => by simp [hi])

lemma dget_map_round (d : List (String × (ℚ × ℚ))) (k : String) :
    dget (d.map fun kv => (kv.1, pyRound2 kv.2.2)) k
      = (dget d k).map (fun v => pyRound2 v.2) := by
  induction d with
  | nil => rfl
  | cons kv d ih =>
    by_cases h : kv.1 = k <;> simp [dget, h, ih]

/-- Claim C2: the portfolio totals range over exactly the holdings whose
fetch succeeded: the accumulated total value is the sum of price times
shares over the succeeded holdings, the accumulated total purchase value
is the corresponding purchase sum, the reported state is the rounding of
the first sum, and a ticker none of whose holdings succeeded is absent
from the per-ticker breakdown rather than present with value zero. -/
theorem portfolio_sums_over_successes :
    ∀ (configs : List StockConfig) (fetch : ℕ → FetchResult),
      (portfolioLoop fetch configs 0 PortfolioAcc.initial).total_value
          = ((successes fetch configs 0).map fun pc => pc.1 * pc.2.shares).sum
        ∧ (portfolioLoop fetch configs 0 PortfolioAcc.initial).total_purchase_value
          = ((successes fetch configs 0).map fun pc => pc.2.purchase_price * pc.2.shares).sum
        ∧ (TotalPortfolioSensor.update configs fetch).1
          = some (pyRound2
              (((successes fetch configs 0).map fun pc => pc.1 * pc.2.shares).sum))
        ∧ ∀ t, t ∉ (successes fetch configs 0).map (fun pc => pc.2.symbol) →
            dget (portfolioLoop fetch configs 0 PortfolioAcc.initial).per_stock t = none
              ∧ dget (TotalPortfolioSensor.update configs fetch).2.by_stock t = none := by
  intro configs fetch
  have hv : (portfolioLoop fetch configs 0 PortfolioAcc.initial).total_value
      = ((successes fetch configs 0).map fun pc => pc.1 * pc.2.shares).sum := by
    rw [portfolioLoop_eq_successLoop, successLoop_total_value]
    simp [PortfolioAcc.initial]
  have hp : (portfolioLoop fetch configs 0 PortfolioAcc.initial).total_purchase_value
      = ((successes fetch configs 0).map fun pc => pc.2.purchase_price * pc.2.shares).sum := by
    rw [portfolioLoop_eq_successLoop, successLoop_tpv]
    simp [PortfolioAcc.initial]
  have habs : ∀ t, t ∉ (successes fetch configs 0).map (fun pc => pc.2.symbol) →
      dget (portfolioLoop fetch configs 0 PortfolioAcc.initial).per_stock t = none := by
    intro t ht
    rw [portfolioLoop_eq_successLoop, successLoop_per_stock_absent _ _ _ ht]
    rfl
  refine ⟨hv, hp, ?_, ?_⟩
  · show some (pyRound2 (portfolioLoop fetch configs 0 PortfolioAcc.initial).total_value) = _
    rw [hv]
  · intro t ht
    refine ⟨habs t ht, ?_⟩
    show dget ((portfolioLoop fetch configs 0 PortfolioAcc.initial).per_stock.map
      fun kv => (kv.1, pyRound2 kv.2.2)) t = none
    rw [dget_map_round, habs t ht]
    rfl

theorem portfolio_sums_over_successes_witness :
    dget (portfolioLoop (fun i => if i = 0 then FetchResult.price (some 3) else .err)
        [⟨"A", "T1", 1, 1⟩, ⟨"B", "T2", 2, 1⟩] 0 PortfolioAcc.initial).per_stock "T2"
      = none :=
  ((portfolio_sums_over_successes [⟨"A", "T1", 1, 1⟩, ⟨"B", "T2", 2, 1⟩]
      (fun i => if i = 0 then FetchResult.price (some 3) else .err)).2.2.2 "T2"
    (by simp [successes])).1

/-- Claim C8, counterexample: the quoted current price is written to the
attribute mapping unrounded (source line 71), so with fetched price 0.125
the output carries a monetary figure with three decimal digits. -/
theorem rounded_outputs_counterexample :
    (StockSensor.update ⟨"A", "T", 1, 1⟩ (.price (some (1 / 8)))
        StockState.initial).attrs.map (·.current_price) = some (1 / 8)
      ∧ ¬ twoDecimals (1 / 8) := by
  constructor
  · rfl
  · rintro ⟨z, hz⟩
    have h1 : (25 : ℚ) = 2 * z := by linarith [hz]
    have h2 : (25 : ℤ) = 2 * z := by exact_mod_cast h1
    omega

/-- Claim C8 (amended): every monetary figure the component itself
computes, namely the rounded states, total purchase values, gains, gain
percents and per-ticker breakdown entries, has at most two decimal
digits; the quoted current price (and the echoed share counts and
purchase prices) are passed through unrounded and may carry more. -/
theorem rounded_outputs_two_decimals :
    (∀ q : ℚ, twoDecimals (pyRound2 q))
    ∧ (∀ (cfg : StockConfig) (p : ℚ) (s : StockState) (x : ℚ) (a : StockAttrs),
      (StockSensor.update cfg (.price (some p)) s).state = some x →
      (StockSensor.update cfg (.price (some p)) s).attrs = some a →
        twoDecimals x ∧ twoDecimals a.gain_loss ∧ twoDecimals a.gain_percent)
    ∧ (∀ (t : String) (configs : List StockConfig) (p : ℚ) (s : AggState) (x : ℚ)
        (a : AggAttrs),
      (AggregateStockSensor.update t configs (.price (some p)) s).state = some x →
      (AggregateStockSensor.update t configs (.price (some p)) s).attrs = some a →
        twoDecimals x ∧ twoDecimals a.total_purchase_value ∧ twoDecimals a.gain_loss
          ∧ twoDecimals a.gain_percent)
    ∧ (∀ (configs : List StockConfig) (fetch : ℕ → FetchResult) (x : ℚ),
      (TotalPortfolioSensor.update configs fetch).1 = some x →
        twoDecimals x
          ∧ twoDecimals (TotalPortfolioSensor.update configs fetch).2.total_purchase_value
          ∧ twoDecimals (TotalPortfolioSensor.update configs fetch).2.total_gain_loss
          ∧ twoDecimals (TotalPortfolioSensor.update configs fetch).2.total_gain_percent
          ∧ ∀ kv ∈ (TotalPortfolioSensor.update configs fetch).2.by_stock,
              twoDecimals kv.2) := by
  refine ⟨twoDecimals_pyRound2, ?_, ?_, ?_⟩
  · intro cfg p s x a hx ha
    simp only [StockSensor.update, Option.some.injEq] at hx ha
    subst hx
    subst ha
    exact ⟨twoDecimals_pyRound2 _, twoDecimals_pyRound2 _, twoDecimals_pyRound2 _⟩
  · intro t configs p s x a hx ha
    simp only [AggregateStockSensor.update, Option.some.injEq] at hx ha
    subst hx
    subst ha
    exact ⟨twoDecimals_pyRound2 _, twoDecimals_pyRound2 _, twoDecimals_pyRound2 _,
      twoDecimals_pyRound2 _⟩
  · intro configs fetch x hx
    simp only [TotalPortfolioSensor.update, Option.some.injEq] at hx
    subst hx
    refine ⟨twoDecimals_pyRound2 _, twoDecimals_pyRound2 _, twoDecimals_pyRound2 _,
      twoDecimals_pyRound2 _, ?_⟩
    intro kv hkv
    simp only [TotalPortfolioSensor.update, List.mem_map] at hkv
    obtain ⟨y, _, rfl⟩ := hkv
    exact twoDecimals_pyRound2 _

theorem rounded_outputs_two_decimals_witness :
    twoDecimals (pyRound2 ((2 : ℚ) * 1)) :=
  (rounded_outputs_two_decimals.2.1 ⟨"A", "T", 1, 1⟩ 2 StockState.initial (pyRound2 (2 * 1))
    ⟨"A", "T", 1, 1, 2, pyRound2 (2 * 1 - 1 * 1),
      pyRound2 (if (1 : ℚ) * 1 ≠ 0 then (2 * 1 - 1 * 1) / (1 * 1) * 100 else 0)⟩
    rfl rfl).1

lemma count_map_symbol (configs : List StockConfig) (t : String) :
    ((configs.map fun c => c.symbol).count t) = (configs.filter fun c => c.symbol = t).length := by
  induction configs with
  | nil => rfl
  | cons c cs ih =>
    simp only [List.map_cons, List.count_cons, List.filter_cons]
    by_cases h : c.symbol = t
    · simp [h, ih]
    · simp [h, ih]

/-- Claim C9: the symbol-aggregate view performs exactly one quote fetch
per ticker, while the portfolio view performs one quote fetch per holding
with no deduplication: its fetch list is the holdings ticker list in
order, so a ticker with n configured holdings is fetched n times there. -/
theorem fetch_call_counts :
    (∀ (t : String) (configs : List StockConfig),
      AggregateStockSensor.fetchCalls t configs = [t]
        ∧ (AggregateStockSensor.fetchCalls t configs).length = 1)
    ∧ (∀ (configs : List StockConfig),
      TotalPortfolioSensor.fetchCalls configs = configs.map (fun c => c.symbol)
        ∧ (TotalPortfolioSensor.fetchCalls configs).length = configs.length
        ∧ ∀ t, (TotalPortfolioSensor.fetchCalls configs).count t
            = (configs.filter fun c => c.symbol = t).length) := by
  refine ⟨fun t configs => ⟨rfl, rfl⟩, fun configs => ⟨rfl, ?_, fun t => count_map_symbol configs t⟩⟩
  simp [TotalPortfolioSensor.fetchCalls]

/-- Claim C10: the portfolio aggregate is never marked unavailable: the
update always produces a numeric state, and on an empty holdings list or
when every fetch raises or returns no price it produces state 0 with
total purchase value 0, total gain 0, total gain percent 0 and an empty
per-stock breakdown. -/
theorem portfolio_never_unavailable :
    ∀ (configs : List StockConfig) (fetch : ℕ → FetchResult),
      (TotalPortfolioSensor.update configs fetch).1.isSome = true
        ∧ ((∀ k, k < configs.length → fetch k = .err ∨ fetch k = .price none) →
          TotalPortfolioSensor.update configs fetch = (some 0, ⟨0, 0, 0, []⟩)) := by
  intro configs fetch
  constructor
  · rfl
  · intro h
    have hs : successes fetch configs 0 = [] :=
      successes_eq_nil fetch configs 0 (by simpa using h)
    unfold TotalPortfolioSensor.update
    rw [portfolioLoop_eq_successLoop, hs]
    simp only [successLoop]
    norm_num [PortfolioAcc.initial, pyRound2_zero]

theorem portfolio_never_unavailable_witness :
    TotalPortfolioSensor.update [⟨"A", "T", 1, 1⟩] (fun _ => FetchResult.err)
      = (some 0, ⟨0, 0, 0, []⟩) :=
  (portfolio_never_unavailable [⟨"A", "T", 1, 1⟩] (fun _ => .err)).2
    (fun _ _ => Or.inl rfl)
